import Mathlib

/-!
Verification of the annotation/note subsystem (`odfdo/note.py`).

The Python source is embedded shallowly: pure functions become Lean
functions, object state becomes explicit records, `raise` becomes
`Except.error` (or an `Option` violation message), and Python truthiness
of optional strings is made explicit.  Collaborator primitives that live
in the (absent) generic element layer are modelled from the spec and
marked as such in their doc comments.
-/

set_option maxHeartbeats 1000000

namespace Odfdo

/-! ### Identifier allocator (`get_unique_office_name`) -/

/-- The candidate name for counter value `i`: `'__Fieldmark__lpod_%s' % i`. -/
def officeName (i : Nat) : String := "__Fieldmark__lpod_" ++ Nat.repr i

/-- The `while True` search loop of `get_unique_office_name`, with explicit
fuel.  Starting from counter `i`, it returns the first `officeName j`
(`j ≥ i`) not in `used`; the fuel `used.length + 1` supplied by
`get_unique_office_name` is proved sufficient below, so the out-of-fuel
branch is never reached. -/
def nameLoop (used : List String) : Nat → Nat → String
  | 0, i => officeName i
  | fuel+1, i => if officeName i ∈ used then nameLoop used fuel (i+1) else officeName i

/-- Modelled from the spec: the two capabilities of the `element` argument
that `get_unique_office_name` consumes — `element.document_body` (absent when
the element is detached) followed by `get_office_names()` on it, and
`element.get_office_names()` itself ("all names currently assigned to
name-bearing constructs visible from that scope"). -/
structure ScopeInfo where
  document_body_names : Option (List String)
  local_names : List String
deriving DecidableEq, Repr

/-- `get_unique_office_name(element=None)` from `note.py`: build the `used`
list from the document body's office names (empty when no body), extend it
with the element's own office names, then probe `__Fieldmark__lpod_<i>` for
`i = 1, 2, …` until a free name is found. -/
def get_unique_office_name (element : Option ScopeInfo) : String :=
  let body := match element with
    | some e => e.document_body_names
    | none => none
  let used := match body with
    | some names => names
    | none => []
  let used2 := match element with
    | some e => used ++ e.local_names
    | none => used
  nameLoop used2 (used2.length + 1) 1

/-- The `used` list assembled by `get_unique_office_name` for a given
`element` argument. -/
def usedOf : Option ScopeInfo → List String
  | none => []
  | some e => (match e.document_body_names with
    | some names => names
    | none => []) ++ e.local_names

/-- A sequence of `n` allocator calls in which every returned name is
recorded in the used-name set before the next call (as happens when
each autonamed annotation is attached to the document body). -/
def allocSeq (used : List String) : Nat → List String
  | 0 => []
  | n+1 =>
    let x := get_unique_office_name (some ⟨some used, []⟩)
    x :: allocSeq (x :: used) n

/-! Decoder used to prove that decimal representations are injective. -/

/-- Value of a decimal digit character as produced by `Nat.digitChar`. -/
def charVal (c : Char) : Nat :=
  if c = '0' then 0 else
  if c = '1' then 1 else
  if c = '2' then 2 else
  if c = '3' then 3 else
  if c = '4' then 4 else
  if c = '5' then 5 else
  if c = '6' then 6 else
  if c = '7' then 7 else
  if c = '8' then 8 else
  if c = '9' then 9 else 10

/-- Decode a list of decimal digit characters, most significant first. -/
def decodeChars (l : List Char) : Nat :=
  l.foldl (fun a c => a * 10 + charVal c) 0

/-! ### Element/tree model

The generic element layer (`element.py`) is not part of this subsystem;
the pieces of it that `note.py` consumes are modelled from the spec. -/

/-- Kind of a node, as far as this subsystem distinguishes them. -/
inductive Tag where
  | annotationStart
  | annotationEnd
  | note
  | header
  | paragraph
  | deletionMark
  | other
deriving DecidableEq, Repr

/-- Modelled from the spec: a content node of the tree model.  `eid` is the
node's identity (Python object identity), `name` its `office:name`
attribute (absent when unset), `text` its flattened text content. -/
structure Elem where
  eid : Nat
  tag : Tag
  name : Option String
  text : String
deriving DecidableEq, Repr

/-- Modelled from the spec: `get_annotation_end(name)` — scoped lookup of
the first `office:annotation-end` node in document order whose name
matches. -/
def get_annotation_end (scope : List Elem) (nm : Option String) : Option Elem :=
  scope.find? (fun e => decide (e.tag = Tag.annotationEnd ∧ e.name = nm))

/-- Modelled from the spec: `get_annotation(name)` — scoped lookup of the
first `office:annotation` node in document order whose name matches. -/
def get_annotation_node (scope : List Elem) (nm : Option String) : Option Elem :=
  scope.find? (fun e => decide (e.tag = Tag.annotationStart ∧ e.name = nm))

/-- Modelled from the spec: ordinary tree removal of one node, identified
by object identity. -/
def deleteNode (tree : List Elem) (x : Elem) : List Elem :=
  tree.filter (fun y => decide (y.eid ≠ x.eid))

/-- Result of `get_annotated`: a text value (`as_text=True`), the absent
result `None`, or a sequence of content nodes. -/
inductive AnnotatedResult where
  | txt (s : String)
  | noneRes
  | elems (l : List Elem)
deriving DecidableEq, Repr

/-- Modelled from the spec: `get_between(start, end, as_text, no_header,
clean)` — the content strictly between the two markers in document order;
`clean` drops editorial/deletion markup, `no_header` retags headings as
paragraphs, `as_text` flattens the result to its concatenated text. -/
def get_between (scope : List Elem) (startE endE : Elem)
    (asText noHeader clean : Bool) : AnnotatedResult :=
  let mid := ((scope.dropWhile (fun e => decide (e.eid ≠ startE.eid))).drop 1).takeWhile
    (fun e => decide (e.eid ≠ endE.eid))
  let mid := if clean then mid.filter (fun e => decide (e.tag ≠ Tag.deletionMark)) else mid
  let mid := if noHeader then mid.map
    (fun e => if e.tag = Tag.header then { e with tag := Tag.paragraph } else e) else mid
  if asText then AnnotatedResult.txt (String.join (mid.map Elem.text))
  else AnnotatedResult.elems mid

/-- `Annotation.end` from `note.py` (named `locate_end` as in the spec):
raise if the node has no parent; otherwise search the document body if
available, else the parent, for the annotation-end with this node's name.
`nm` is the node's `office:name`, `parent` its parent's children in
document order, `docBody` the document body's nodes when attached. -/
def AnnotationNode.locate_end (nm : Option String)
    (parent docBody : Option (List Elem)) : Except String (Option Elem) :=
  match parent with
  | none => Except.error "Can not find end tag: no parent available."
  | some p =>
    let body := match docBody with
      | some b => b
      | none => p
    Except.ok (get_annotation_end body nm)

/-- `AnnotationEnd.start` from `note.py` (named `locate_start` as in the
spec): mirror of `Annotation.locate_end`. -/
def AnnotationEnd.locate_start (nm : Option String)
    (parent docBody : Option (List Elem)) : Except String (Option Elem) :=
  match parent with
  | none => Except.error "Can not find start tag: no parent available."
  | some p =>
    let body := match docBody with
      | some b => b
      | none => p
    Except.ok (get_annotation_node body nm)

/-- `Annotation.get_annotated` from `note.py`: resolve the paired end; if
none, return `''` (`as_text`) or `None`; otherwise extract the content
between the two markers from the document body (or the root when
detached). -/
def AnnotationNode.get_annotated (self : Elem) (parent docBody : Option (List Elem))
    (root : List Elem) (asText noHeader clean : Bool) :
    Except String AnnotatedResult :=
  match AnnotationNode.locate_end self.name parent docBody with
  | Except.error msg => Except.error msg
  | Except.ok none =>
    if asText then Except.ok (AnnotatedResult.txt "")
    else Except.ok AnnotatedResult.noneRes
  | Except.ok (some e) =>
    let body := match docBody with
      | some b => b
      | none => root
    Except.ok (get_between body self e asText noHeader clean)

/-- `Annotation.delete` from `note.py`: with an explicit child, ordinary
removal of that child; with no child, first delete the located
annotation-end (when there is one), then the annotation itself.  `tree`
is the flattened document the nodes live in. -/
def AnnotationNode.delete (self : Elem) (child : Option Elem)
    (parent docBody : Option (List Elem)) (tree : List Elem) :
    Except String (List Elem) :=
  match child with
  | some c => Except.ok (deleteNode tree c)
  | none =>
    match AnnotationNode.locate_end self.name parent docBody with
    | Except.error msg => Except.error msg
    | Except.ok none => Except.ok (deleteNode tree self)
    | Except.ok (some e) => Except.ok (deleteNode (deleteNode tree e) self)

/-- Python truthiness of an optional string: `None` and `""` are falsy. -/
def strFalsy : Option String → Bool
  | none => true
  | some s => s = ""

/-- `AnnotationEnd.__init__` from `note.py`: copy the name from the given
annotation when one is supplied, then fail unless the resulting name is
truthy; `eid` is the identity of the freshly created node. -/
def AnnotationEnd.init (annot : Option Elem) (nm : Option String)
    (eid : Nat) : Except String Elem :=
  let nm2 := match annot with
    | some a => a.name
    | none => nm
  if strFalsy nm2 then Except.error "Annotation-end must have a name"
  else Except.ok { eid := eid, tag := Tag.annotationEnd, name := nm2, text := "" }

/-! ### Notes -/

/-- Argument of a body setter: Python `str`/`bytes`, an `Element`, or
anything else (rejected at runtime). -/
inductive BodyInput where
  | str (s : String)
  | elem (e : Elem)
  | other
deriving DecidableEq, Repr

/-- State of a `Note` element: the `text:note-class` and `text:id`
attributes (absent when unset), the text of the `text:note-citation`
child and the flattened text content of the `text:note-body` child (both
children exist from construction on). -/
structure NoteState where
  note_class : Option String
  note_id : Option String
  citation : String
  bodyText : String
deriving DecidableEq, Repr

/-- `Note.note_body` getter: the text content of the body sub-region. -/
def Note.note_body (s : NoteState) : String := s.bodyText

/-- `Note.note_body` setter: plain text replaces the body sub-region's
text content; an element is installed as its sole child (its flattened
text then being the element's text — modelled from the spec for
`text_content`); anything else raises `ValueError`. -/
def Note.set_note_body (s : NoteState) (v : BodyInput) : Except String NoteState :=
  match v with
  | BodyInput.str t => Except.ok { s with bodyText := t }
  | BodyInput.elem e => Except.ok { s with bodyText := e.text }
  | BodyInput.other => Except.error "Unexpected type for body"

/-- `Note.check_validity` from `note.py`: the first raised `ValueError`
message, or `none` when the note is valid.  An empty body is explicitly
tolerated (`if not self.note_body: pass`). -/
def Note.check_validity (s : NoteState) : Option String :=
  if strFalsy s.note_class then some "note class must be footnote or endnote"
  else if strFalsy s.note_id then some "notes must have an id"
  else if s.citation = "" then some "notes must have a citation"
  else none

/-! ### Annotations (state and lifecycle) -/

/-- State of an `Annotation` element: its flattened text content (the
annotation body), the `dc:creator` and `dc:date` children (absent when
unset; dates are modelled as timestamps), and the `office:name`
attribute (absent when unset). -/
structure AnnotationState where
  text_content : String
  dc_creator : Option String
  dc_date : Option Nat
  name : Option String
deriving DecidableEq, Repr

/-- `Annotation.note_body` getter: the node's text content. -/
def AnnotationNode.note_body (s : AnnotationState) : String := s.text_content

/-- `Annotation.note_body` setter: text replaces the text content; an
element becomes the sole child after `clear()` (its flattened text then
being the element's text — modelled from the spec for `text_content`);
anything else raises `TypeError`. -/
def AnnotationNode.set_note_body (s : AnnotationState) (v : BodyInput) :
    Except String AnnotationState :=
  match v with
  | BodyInput.str t => Except.ok { s with text_content := t }
  | BodyInput.elem e => Except.ok { s with text_content := e.text }
  | BodyInput.other => Except.error "expected unicode or Element"

/-- `Annotation.__init__` from `note.py`: install the body, set the
creator when truthy, default the date to `now`, and only in the branch
where the supplied name is falsy obtain an autogenerated name and assign
it — a truthy supplied name is never assigned. -/
def AnnotationNode.init (textOrElem : BodyInput) (creator : Option String)
    (date : Option Nat) (nm : Option String) (parent : Option ScopeInfo)
    (now : Nat) : Except String AnnotationState :=
  let s0 : AnnotationState :=
    { text_content := "", dc_creator := none, dc_date := none, name := none }
  match AnnotationNode.set_note_body s0 textOrElem with
  | Except.error msg => Except.error msg
  | Except.ok s1 =>
    let s2 := if strFalsy creator then s1 else { s1 with dc_creator := creator }
    let d := match date with
      | none => now
      | some d0 => d0
    let s3 := { s2 with dc_date := some d }
    if strFalsy nm then
      Except.ok { s3 with name := some (get_unique_office_name parent) }
    else
      Except.ok s3

/-- `Annotation.check_validity` from `note.py`: raise when the body or the
creator is empty; when the date is unset, silently set it to `now` —
the only mutation validation performs. -/
def AnnotationNode.check_validity (s : AnnotationState) (now : Nat) :
    Except String AnnotationState :=
  if s.text_content = "" then Except.error "annotation must have a body"
  else if strFalsy s.dc_creator then Except.error "annotation must have a creator"
  else if s.dc_date = none then Except.ok { s with dc_date := some now }
  else Except.ok s

end Odfdo

namespace Odfdo

theorem charVal_digitChar (d : Nat) (h : d < 10) :
    charVal (Nat.digitChar d) = d := by
  interval_cases d <;> decide

theorem decode_foldl_shift (l : List Char) (a : Nat) :
    l.foldl (fun a c => a * 10 + charVal c) a
      = a * 10 ^ l.length + decodeChars l := by
  induction l generalizing a with
  | nil => simp [decodeChars]
  | cons c tl ih =>
    have h1 := ih (a * 10 + charVal c)
    have h2 := ih (charVal c)
    simp only [decodeChars, List.foldl, List.length_cons, Nat.zero_mul,
      Nat.zero_add] at *
    rw [h1, h2]
    ring

theorem decode_toDigitsCore (fuel : Nat) :
    ∀ n ds, n < 10 ^ fuel →
      decodeChars (Nat.toDigitsCore 10 fuel n ds)
        = n * 10 ^ ds.length + decodeChars ds := by
  induction fuel with
  | zero =>
    intro n ds h
    interval_cases n
    simp [Nat.toDigitsCore]
  | succ f ih =>
    intro n ds h
    have hcons : ∀ m, m < 10 →
        decodeChars (Nat.digitChar m :: ds) = m * 10 ^ ds.length + decodeChars ds := by
      intro m hm
      simp only [decodeChars, List.foldl]
      rw [decode_foldl_shift ds (0 * 10 + charVal (Nat.digitChar m))]
      rw [charVal_digitChar m hm]
      ring_nf
      rfl
    by_cases h0 : n / 10 = 0
    · have hn10 : n < 10 := by omega
      simp only [Nat.toDigitsCore, h0, if_true]
      rw [Nat.mod_eq_of_lt hn10]
      exact hcons n hn10
    · simp only [Nat.toDigitsCore, h0, if_false]
      have hlt : n / 10 < 10 ^ f := by
        rw [Nat.div_lt_iff_lt_mul (by norm_num : (0:Nat) < 10)]
        calc n < 10 ^ (f + 1) := h
        _ = 10 ^ f * 10 := by rw [pow_succ]
      rw [ih (n / 10) (Nat.digitChar (n % 10) :: ds) hlt]
      rw [hcons (n % 10) (Nat.mod_lt n (by omega))]
      have hdm : n / 10 * 10 + n % 10 = n := by omega
      simp only [List.length_cons]
      calc n / 10 * 10 ^ (ds.length + 1) + (n % 10 * 10 ^ ds.length + decodeChars ds)
          = (n / 10 * 10 + n % 10) * 10 ^ ds.length + decodeChars ds := by ring
      _ = n * 10 ^ ds.length + decodeChars ds := by rw [hdm]

theorem decodeChars_toDigits (n : Nat) :
    decodeChars (Nat.toDigits 10 n) = n := by
  have h : n < 10 ^ (n + 1) := by
    calc n < 10 ^ n := Nat.lt_pow_self (by norm_num) n
    _ ≤ 10 ^ (n + 1) := Nat.pow_le_pow_right (by norm_num) (Nat.le_succ n)
  simpa [decodeChars] using decode_toDigitsCore (n + 1) n [] h

theorem natRepr_inj (a b : Nat) (h : Nat.repr a = Nat.repr b) : a = b := by
  have hdata : (Nat.toDigits 10 a) = (Nat.toDigits 10 b) := by
    have hc := congrArg String.data h
    simpa [Nat.repr, List.asString] using hc
  have ha := decodeChars_toDigits a
  have hb := decodeChars_toDigits b
  rw [hdata, hb] at ha
  exact ha.symm

theorem officeName_inj (i j : Nat) (h : officeName i = officeName j) : i = j := by
  unfold officeName at h
  have hc := congrArg String.data h
  simp only [String.data_append] at hc
  have hrepr : (Nat.repr i).data = (Nat.repr j).data :=
    List.append_cancel_left hc
  exact natRepr_inj i j (String.ext hrepr)

theorem exists_free_name (used : List String) (i : Nat) :
    ∃ k, i ≤ k ∧ k < i + (used.length + 1) ∧ officeName k ∉ used := by
  by_contra hc
  push_neg at hc
  have hmap : ∀ j ∈ Finset.range (used.length + 1),
      officeName (i + j) ∈ used.toFinset := by
    intro j hj
    rw [List.mem_toFinset]
    exact hc (i + j) (Nat.le_add_right _ _)
      (by rw [Finset.mem_range] at hj; omega)
  have hcard : used.toFinset.card < (Finset.range (used.length + 1)).card := by
    rw [Finset.card_range]
    exact Nat.lt_succ_of_le used.toFinset_card_le
  obtain ⟨x, hx, y, hy, hxy, heq⟩ :=
    Finset.exists_ne_map_eq_of_card_lt_of_maps_to hcard hmap
  exact hxy (Nat.add_left_cancel (officeName_inj _ _ heq))

theorem nameLoop_spec (used : List String) (fuel : Nat) :
    ∀ i, (∃ k, i ≤ k ∧ k < i + fuel ∧ officeName k ∉ used) →
      ∃ m, nameLoop used fuel i = officeName m ∧ i ≤ m ∧ officeName m ∉ used ∧
        ∀ j, i ≤ j → j < m → officeName j ∈ used := by
  induction fuel with
  | zero =>
    rintro i ⟨k, hk1, hk2, -⟩
    omega
  | succ f ih =>
    rintro i ⟨k, hk1, hk2, hk3⟩
    simp only [nameLoop]
    by_cases hmem : officeName i ∈ used
    · rw [if_pos hmem]
      have hik : i ≠ k := by
        rintro rfl
        exact hk3 hmem
      obtain ⟨m, hm1, hm2, hm3, hm4⟩ :=
        ih (i + 1) ⟨k, by omega, by omega, hk3⟩
      refine ⟨m, hm1, by omega, hm3, ?_⟩
      intro j hj1 hj2
      rcases Nat.eq_or_lt_of_le hj1 with rfl | hlt
      · exact hmem
      · exact hm4 j hlt hj2
    · rw [if_neg hmem]
      exact ⟨i, rfl, Nat.le_refl i, hmem, fun j hj1 hj2 => absurd hj2 (by omega)⟩

theorem get_unique_office_name_eq (element : Option ScopeInfo) :
    get_unique_office_name element
      = nameLoop (usedOf element) ((usedOf element).length + 1) 1 := by
  rcases element with - | e
  · rfl
  · rcases e with ⟨b | -, l⟩ <;> rfl

theorem gu_spec (element : Option ScopeInfo) :
    ∃ k, get_unique_office_name element = officeName k ∧ 1 ≤ k ∧
      officeName k ∉ usedOf element ∧
      ∀ j, 1 ≤ j → j < k → officeName j ∈ usedOf element := by
  obtain ⟨m, hm1, hm2, hm3, hm4⟩ :=
    nameLoop_spec (usedOf element) ((usedOf element).length + 1) 1
      (exists_free_name (usedOf element) 1)
  exact ⟨m, by rw [get_unique_office_name_eq]; exact hm1, hm2, hm3, hm4⟩

theorem gu_not_mem (element : Option ScopeInfo) :
    get_unique_office_name element ∉ usedOf element := by
  obtain ⟨k, h1, -, h3, -⟩ := gu_spec element
  rw [h1]
  exact h3

theorem gu_not_mem_scope (used : List String) :
    get_unique_office_name (some ⟨some used, []⟩) ∉ used := by
  have h := gu_not_mem (some ⟨some used, []⟩)
  simpa [usedOf] using h

theorem allocSeq_spec (used : List String) (n : Nat) :
    (allocSeq used n).Nodup ∧ ∀ x ∈ allocSeq used n, x ∉ used := by
  induction n generalizing used with
  | zero => simp [allocSeq]
  | succ m ih =>
    obtain ⟨hnd, hnm⟩ := ih (get_unique_office_name (some ⟨some used, []⟩) :: used)
    refine ⟨List.nodup_cons.2 ⟨?_, hnd⟩, ?_⟩
    · intro hmem
      exact hnm _ hmem (List.mem_cons_self _ _)
    · intro x hx
      rcases List.mem_cons.1 hx with rfl | hx2
      · exact gu_not_mem_scope used
      · intro hxu
        exact hnm x hx2 (List.mem_cons_of_mem _ hxu)

theorem find?_eq_of_unique {p : Elem → Bool} {scope : List Elem} {a : Elem}
    (hmem : a ∈ scope) (hpa : p a = true)
    (huniq : ∀ x ∈ scope, p x = true → x = a) :
    scope.find? p = some a := by
  induction scope with
  | nil => cases hmem
  | cons b tl ih =>
    by_cases hb : p b = true
    · have hba : b = a := huniq b (List.mem_cons_self _ _) hb
      subst hba
      exact List.find?_cons_of_pos tl hb
    · rw [List.find?_cons_of_neg tl (by simpa using hb)]
      refine ih ?_ ?_
      · rcases List.mem_cons.1 hmem with rfl | h
        · exact absurd hpa hb
        · exact h
      · intro x hx hpx
        exact huniq x (List.mem_cons_of_mem _ hx) hpx

/-- C1 (counterexample): against the fixed, unchanging used-name set `{}`,
two successive allocator calls return the very same name, so the returned
names of a 2-call sequence are not pairwise distinct. -/
theorem alloc_fixed_set_repeats :
    get_unique_office_name (some ⟨some [], []⟩)
        = get_unique_office_name (some ⟨some [], []⟩) ∧
    ¬ ([get_unique_office_name (some ⟨some [], []⟩),
        get_unique_office_name (some ⟨some [], []⟩)].Nodup) := by
  refine ⟨rfl, ?_⟩
  simp

/-- C1 (amended): for every sequence of N allocations in which each
returned name is added to the used-name set before the next allocation,
the N returned names are pairwise distinct and none of them appears in
the original used-name set. -/
theorem alloc_accumulated_unique (used : List String) (n : Nat) :
    (allocSeq used n).Nodup ∧ (allocSeq used n).Disjoint used := by
  obtain ⟨h1, h2⟩ := allocSeq_spec used n
  refine ⟨h1, ?_⟩
  intro x hmem hmem2
  exact h2 x hmem hmem2

/-- C1 (witness): three accumulated allocations against the original set
`{"__Fieldmark__lpod_2"}` are pairwise distinct and avoid that set. -/
theorem alloc_accumulated_unique_witness :
    (allocSeq ["__Fieldmark__lpod_2"] 3).Nodup ∧
    (allocSeq ["__Fieldmark__lpod_2"] 3).Disjoint ["__Fieldmark__lpod_2"] :=
  alloc_accumulated_unique ["__Fieldmark__lpod_2"] 3

/-- C2: for every pair of used-name sets (scope names and local names) the
allocator returns `__Fieldmark__lpod_<k>` for the least counter `k ≥ 1`
whose name is not in the union of the two sets; with no names in use the
first allocation is `__Fieldmark__lpod_1`, and with that name in use the
next is `__Fieldmark__lpod_2`. -/
theorem allocator_first_free (su lu : List String) :
    (∃ k, get_unique_office_name (some ⟨some su, lu⟩) = officeName k ∧ 1 ≤ k ∧
      officeName k ∉ su ++ lu ∧
      ∀ j, 1 ≤ j → j < k → officeName j ∈ su ++ lu) ∧
    get_unique_office_name (some ⟨some [], []⟩) = "__Fieldmark__lpod_1" ∧
    get_unique_office_name (some ⟨some ["__Fieldmark__lpod_1"], []⟩)
      = "__Fieldmark__lpod_2" := by
  refine ⟨?_, by decide, by decide⟩
  simpa [usedOf] using gu_spec (some ⟨some su, lu⟩)

/-- C2 (witness): concrete instance of the characterization, at scope
names `{"__Fieldmark__lpod_1"}` and no local names. -/
theorem allocator_first_free_witness :
    get_unique_office_name (some ⟨some ["__Fieldmark__lpod_1"], []⟩)
      = "__Fieldmark__lpod_2" :=
  (allocator_first_free ["__Fieldmark__lpod_1"] []).2.2

/-- C3: for an annotation that has a parent but no matching annotation-end
in its governing scope, `get_annotated` returns the empty text `""` when
`as_text` is true and the absent result `None` when it is false — it never
treats the range as running from the start to the end of the document. -/
theorem get_annotated_missing_partner (self : Elem) (p root : List Elem)
    (docBody : Option (List Elem)) (noHeader clean : Bool)
    (h : get_annotation_end (docBody.getD p) self.name = none) :
    AnnotationNode.get_annotated self (some p) docBody root true noHeader clean
        = Except.ok (AnnotatedResult.txt "") ∧
    AnnotationNode.get_annotated self (some p) docBody root false noHeader clean
        = Except.ok AnnotatedResult.noneRes := by
  rcases docBody with - | b <;>
    simp_all [AnnotationNode.get_annotated, AnnotationNode.locate_end]

/-- C3 (witness): a lone annotation in its parent, with no document body,
extracts to `""` and `None`. -/
theorem get_annotated_missing_partner_witness :
    AnnotationNode.get_annotated ⟨0, Tag.annotationStart, some "a", ""⟩
        (some [⟨0, Tag.annotationStart, some "a", ""⟩]) none
        [⟨0, Tag.annotationStart, some "a", ""⟩] true true true
        = Except.ok (AnnotatedResult.txt "") ∧
    AnnotationNode.get_annotated ⟨0, Tag.annotationStart, some "a", ""⟩
        (some [⟨0, Tag.annotationStart, some "a", ""⟩]) none
        [⟨0, Tag.annotationStart, some "a", ""⟩] false true true
        = Except.ok AnnotatedResult.noneRes :=
  get_annotated_missing_partner ⟨0, Tag.annotationStart, some "a", ""⟩
    [⟨0, Tag.annotationStart, some "a", ""⟩] [⟨0, Tag.annotationStart, some "a", ""⟩]
    none true true (by decide)

/-- C4: deleting an annotation with no explicit target removes the located
annotation-end (deleted first) and then the annotation itself from the
tree; when no end is located, only the annotation itself is removed and
every other node is untouched. -/
theorem annotation_delete_cascade (self e : Elem) (p tree : List Elem)
    (docBody : Option (List Elem)) :
    (get_annotation_end (docBody.getD p) self.name = some e →
      AnnotationNode.delete self none (some p) docBody tree
          = Except.ok (deleteNode (deleteNode tree e) self) ∧
      ∀ x, x ∈ deleteNode (deleteNode tree e) self ↔
        (x ∈ tree ∧ x.eid ≠ e.eid ∧ x.eid ≠ self.eid)) ∧
    (get_annotation_end (docBody.getD p) self.name = none →
      AnnotationNode.delete self none (some p) docBody tree
          = Except.ok (deleteNode tree self) ∧
      ∀ x, x ∈ deleteNode tree self ↔ (x ∈ tree ∧ x.eid ≠ self.eid)) := by
  constructor
  · intro h
    constructor
    · rcases docBody with - | b <;>
        simp_all [AnnotationNode.delete, AnnotationNode.locate_end]
    · intro x
      simp only [deleteNode, List.mem_filter, decide_eq_true_eq]
      tauto
  · intro h
    constructor
    · rcases docBody with - | b <;>
        simp_all [AnnotationNode.delete, AnnotationNode.locate_end]
    · intro x
      simp only [deleteNode, List.mem_filter, decide_eq_true_eq]

/-- C4 (witness): deleting the annotation of a two-node tree holding its
paired end removes both nodes. -/
theorem annotation_delete_cascade_witness :
    AnnotationNode.delete ⟨0, Tag.annotationStart, some "a", ""⟩ none
        (some [⟨0, Tag.annotationStart, some "a", ""⟩, ⟨1, Tag.annotationEnd, some "a", ""⟩])
        none
        [⟨0, Tag.annotationStart, some "a", ""⟩, ⟨1, Tag.annotationEnd, some "a", ""⟩]
      = Except.ok (deleteNode (deleteNode
          [⟨0, Tag.annotationStart, some "a", ""⟩, ⟨1, Tag.annotationEnd, some "a", ""⟩]
          ⟨1, Tag.annotationEnd, some "a", ""⟩) ⟨0, Tag.annotationStart, some "a", ""⟩) :=
  ((annotation_delete_cascade ⟨0, Tag.annotationStart, some "a", ""⟩
    ⟨1, Tag.annotationEnd, some "a", ""⟩
    [⟨0, Tag.annotationStart, some "a", ""⟩, ⟨1, Tag.annotationEnd, some "a", ""⟩]
    [⟨0, Tag.annotationStart, some "a", ""⟩, ⟨1, Tag.annotationEnd, some "a", ""⟩]
    none).1 (by decide)).1

/-- C5: for an annotation start and an annotation-end created from it
(`from_start`), both attached in the same governing scope — in which, per
the uniqueness invariant, they are the only annotation and annotation-end
bearing that name — `locate_end` on the start returns that end and
`locate_start` on the end returns that start. -/
theorem pairing_symmetry (startE endE : Elem) (scope p : List Elem) (eid : Nat)
    (hinit : AnnotationEnd.init (some startE) none eid = Except.ok endE)
    (hmemS : startE ∈ scope) (hmemE : endE ∈ scope)
    (hstartTag : startE.tag = Tag.annotationStart)
    (huniqE : ∀ x ∈ scope, x.tag = Tag.annotationEnd → x.name = startE.name → x = endE)
    (huniqS : ∀ x ∈ scope, x.tag = Tag.annotationStart → x.name = startE.name → x = startE) :
    AnnotationNode.locate_end startE.name (some p) (some scope)
        = Except.ok (some endE) ∧
    AnnotationEnd.locate_start endE.name (some p) (some scope)
        = Except.ok (some startE) := by
  unfold AnnotationEnd.init at hinit
  by_cases hf : strFalsy startE.name = true
  · simp [hf] at hinit
  · simp only [hf, Bool.false_eq_true, if_false, Except.ok.injEq] at hinit
    have hend : endE = ⟨eid, Tag.annotationEnd, startE.name, ""⟩ := hinit.symm
    have hname : endE.name = startE.name := by rw [hend]
    have htag : endE.tag = Tag.annotationEnd := by rw [hend]
    constructor
    · simp only [AnnotationNode.locate_end, get_annotation_end]
      rw [find?_eq_of_unique hmemE
        (by simp [htag, hname])
        (fun x hx hpx => huniqE x hx
          (by simpa using (of_decide_eq_true hpx).1)
          (by simpa using (of_decide_eq_true hpx).2))]
    · simp only [AnnotationEnd.locate_start, get_annotation_node, hname]
      rw [find?_eq_of_unique hmemS
        (by simp [hstartTag])
        (fun x hx hpx => huniqS x hx
          (by simpa using (of_decide_eq_true hpx).1)
          (by simpa using (of_decide_eq_true hpx).2))]

/-- C5 (witness): a concrete start/end pair alone in their scope. -/
theorem pairing_symmetry_witness :
    AnnotationNode.locate_end (some "a")
        (some [⟨0, Tag.annotationStart, some "a", ""⟩, ⟨1, Tag.annotationEnd, some "a", ""⟩])
        (some [⟨0, Tag.annotationStart, some "a", ""⟩, ⟨1, Tag.annotationEnd, some "a", ""⟩])
        = Except.ok (some ⟨1, Tag.annotationEnd, some "a", ""⟩) ∧
    AnnotationEnd.locate_start (some "a")
        (some [⟨0, Tag.annotationStart, some "a", ""⟩, ⟨1, Tag.annotationEnd, some "a", ""⟩])
        (some [⟨0, Tag.annotationStart, some "a", ""⟩, ⟨1, Tag.annotationEnd, some "a", ""⟩])
        = Except.ok (some ⟨0, Tag.annotationStart, some "a", ""⟩) :=
  pairing_symmetry ⟨0, Tag.annotationStart, some "a", ""⟩
    ⟨1, Tag.annotationEnd, some "a", ""⟩
    [⟨0, Tag.annotationStart, some "a", ""⟩, ⟨1, Tag.annotationEnd, some "a", ""⟩]
    [⟨0, Tag.annotationStart, some "a", ""⟩, ⟨1, Tag.annotationEnd, some "a", ""⟩]
    1 rfl (by decide) (by decide) (by decide)
    (by decide) (by decide)

/-- C6: partner lookup raises a structural error exactly when the node has
no parent; with a parent it searches the governing scope (document body if
available, else the parent) and returns the first matching partner, or
`none` as a soft result when the partner is missing. -/
theorem partner_lookup_scope (nm : Option String)
    (parent docBody : Option (List Elem)) :
    ((∃ msg, AnnotationNode.locate_end nm parent docBody = Except.error msg) ↔
      parent = none) ∧
    ((∃ msg, AnnotationEnd.locate_start nm parent docBody = Except.error msg) ↔
      parent = none) ∧
    (∀ p, parent = some p →
      AnnotationNode.locate_end nm parent docBody
          = Except.ok (get_annotation_end (docBody.getD p) nm) ∧
      AnnotationEnd.locate_start nm parent docBody
          = Except.ok (get_annotation_node (docBody.getD p) nm)) := by
  rcases parent with - | p
  · refine ⟨⟨fun _ => rfl, fun _ => ?_⟩, ⟨fun _ => rfl, fun _ => ?_⟩, ?_⟩
    · exact ⟨_, rfl⟩
    · exact ⟨_, rfl⟩
    · intro q hq
      cases hq
  · refine ⟨⟨?_, fun h => by cases h⟩, ⟨?_, fun h => by cases h⟩, ?_⟩
    · rintro ⟨msg, hmsg⟩
      rcases docBody with - | b <;> simp [AnnotationNode.locate_end] at hmsg
    · rintro ⟨msg, hmsg⟩
      rcases docBody with - | b <;> simp [AnnotationEnd.locate_start] at hmsg
    · rintro q ⟨rfl⟩
      rcases docBody with - | b <;>
        simp [AnnotationNode.locate_end, AnnotationEnd.locate_start]

/-- C6 (witness): with no parent the lookup errors; with a parent and no
partner in scope it returns the soft `none`. -/
theorem partner_lookup_scope_witness :
    (∃ msg, AnnotationNode.locate_end (some "a") none none = Except.error msg) ∧
    AnnotationNode.locate_end (some "a") (some []) none = Except.ok none := by
  constructor
  · exact (partner_lookup_scope (some "a") none none).1.mpr rfl
  · have h := ((partner_lookup_scope (some "a") (some []) none).2.2 [] rfl).1
    simpa [get_annotation_end] using h

/-- C7 (counterexample): a note whose class is the unrecognized string
`"banana"` (with non-empty id and citation) passes `check_validity` with
no violation, contradicting the claim that an unrecognized class is
reported. -/
theorem note_unrecognized_class_no_violation :
    Note.check_validity ⟨some "banana", some "n1", "1", ""⟩ = none ∧
    (some "banana" : Option String) ≠ some "footnote" ∧
    (some "banana" : Option String) ≠ some "endnote" := by
  decide

/-- C7 (amended): `Note.check_validity` reports a violation exactly when
the class is empty, the id is empty, or the citation is empty — the class
is not checked against the recognized values — and an empty body is
tolerated: a note with class `footnote`, id `n1`, citation `1` and empty
body validates, while the same note with empty citation is reported. -/
theorem note_check_validity_spec :
    (∀ s : NoteState, Note.check_validity s = none ↔
      (strFalsy s.note_class = false ∧ strFalsy s.note_id = false ∧
        s.citation ≠ "")) ∧
    Note.check_validity ⟨some "footnote", some "n1", "1", ""⟩ = none ∧
    Note.check_validity ⟨some "footnote", some "n1", "", ""⟩
      = some "notes must have a citation" := by
  refine ⟨?_, by decide, by decide⟩
  intro s
  simp only [Note.check_validity]
  split_ifs with h1 h2 h3 <;> simp_all

/-- C7 (amended, witness): the scenario note with citation `"1"` and empty
body yields no violation, via the characterization. -/
theorem note_check_validity_spec_witness :
    Note.check_validity ⟨some "footnote", some "n1", "1", ""⟩ = none :=
  (note_check_validity_spec.1 ⟨some "footnote", some "n1", "1", ""⟩).mpr
    (by decide)

/-- C8: `Annotation.check_validity` fails exactly when the body text is
empty or the creator is empty; when both are present and the date is
unset it succeeds and populates the date with the current time — and that
is its only mutation — while with a date already set it returns the state
unchanged. -/
theorem annotation_check_validity_spec (s : AnnotationState) (now : Nat) :
    ((∃ msg, AnnotationNode.check_validity s now = Except.error msg) ↔
      (s.text_content = "" ∨ strFalsy s.dc_creator = true)) ∧
    (s.text_content ≠ "" → strFalsy s.dc_creator = false → s.dc_date = none →
      AnnotationNode.check_validity s now
        = Except.ok { s with dc_date := some now }) ∧
    (s.text_content ≠ "" → strFalsy s.dc_creator = false → s.dc_date ≠ none →
      AnnotationNode.check_validity s now = Except.ok s) := by
  refine ⟨⟨?_, ?_⟩, ?_, ?_⟩
  · rintro ⟨msg, hmsg⟩
    simp only [AnnotationNode.check_validity] at hmsg
    split_ifs at hmsg with hA hB hC
    · exact Or.inl hA
    · exact Or.inr hB
  · intro h
    simp only [AnnotationNode.check_validity]
    rcases h with h | h
    · rw [if_pos h]
      exact ⟨_, rfl⟩
    · by_cases hA : s.text_content = ""
      · rw [if_pos hA]
        exact ⟨_, rfl⟩
      · rw [if_neg hA, if_pos h]
        exact ⟨_, rfl⟩
  · intro h1 h2 h3
    simp only [AnnotationNode.check_validity]
    rw [if_neg h1, if_neg (by simp [h2]), if_pos h3]
  · intro h1 h2 h3
    simp only [AnnotationNode.check_validity]
    rw [if_neg h1, if_neg (by simp [h2]), if_neg h3]

/-- C8 (witness): validating a dateless annotation with body `"b"` and
creator `"Alice"` at time `42` succeeds and fills in only the date. -/
theorem annotation_check_validity_spec_witness :
    AnnotationNode.check_validity ⟨"b", some "Alice", none, none⟩ 42
      = Except.ok ⟨"b", some "Alice", some 42, none⟩ :=
  (annotation_check_validity_spec ⟨"b", some "Alice", none, none⟩ 42).2.1
    (by decide) (by decide) rfl

/-- C9: setting a note's body to plain text `T` and reading it back yields
`T`, for every note state and every `T`; setting the body to something
that is neither text nor a content node is rejected with an error. -/
theorem note_body_roundtrip (s : NoteState) (t : String) :
    (Note.set_note_body s (BodyInput.str t)).map Note.note_body
        = Except.ok t ∧
    (∃ msg, Note.set_note_body s BodyInput.other = Except.error msg) :=
  ⟨rfl, ⟨_, rfl⟩⟩

/-- C10: a truthy name passed to the `Annotation` constructor is never
assigned to the element — the `office:name` attribute of the resulting
state is unset — while a falsy name triggers the autogenerated-name
branch, the only place the attribute is assigned. -/
theorem annotation_init_ignores_given_name (t : String) (creator : Option String)
    (date : Option Nat) (n : String) (parent : Option ScopeInfo) (now : Nat)
    (hn : n ≠ "") :
    (∀ v s', AnnotationNode.init v creator date (some n) parent now = Except.ok s' →
      s'.name = none) ∧
    (∀ s', AnnotationNode.init (BodyInput.str t) creator date none parent now
        = Except.ok s' →
      s'.name = some (get_unique_office_name parent)) := by
  have hfalsy : strFalsy (some n) = false := by simp [strFalsy, hn]
  constructor
  · intro v s' h
    cases v with
    | str t2 =>
      simp only [AnnotationNode.init, AnnotationNode.set_note_body, hfalsy,
        Bool.false_eq_true, if_false, Except.ok.injEq] at h
      subst h
      by_cases hc : strFalsy creator = true <;> simp [hc]
    | elem e =>
      simp only [AnnotationNode.init, AnnotationNode.set_note_body, hfalsy,
        Bool.false_eq_true, if_false, Except.ok.injEq] at h
      subst h
      by_cases hc : strFalsy creator = true <;> simp [hc]
    | other =>
      simp only [AnnotationNode.init, AnnotationNode.set_note_body] at h
      cases h
  · intro s' h
    simp only [AnnotationNode.init, AnnotationNode.set_note_body, strFalsy,
      if_true, Except.ok.injEq] at h
    subst h
    by_cases hc : strFalsy creator = true <;> simp [hc]

/-- C10 (witness): constructing with the non-empty name `"given"` leaves
the `office:name` attribute unset on the concrete resulting state. -/
theorem annotation_init_ignores_given_name_witness :
    AnnotationNode.init (BodyInput.str "hello") (some "Alice") none (some "given")
        none 5 = Except.ok ⟨"hello", some "Alice", some 5, none⟩ ∧
    AnnotationState.name ⟨"hello", some "Alice", some 5, none⟩ = none := by
  constructor
  · rfl
  · exact (annotation_init_ignores_given_name "hello" (some "Alice") none
      "given" none 5 (by decide)).1 (BodyInput.str "hello")
      ⟨"hello", some "Alice", some 5, none⟩ rfl

end Odfdo
